import Mathlib

/-!
Verification of the `pub_iterator_type!` code-generation facility
(repository `pub-iterator-type`, file `src/lib.rs`).

The facility is a single `macro_rules!`-style generator with two arms:

  ( #[$($attr:tt)*] $Name:ident [ $($NameParam:tt)* ] = $From:ty )
  ( #[$($attr:tt)*] $Name:ident [ $($NameParam:tt)* ] = $From:ty where $($w:tt)* )

Each arm emits a `pub struct $Name<params>($From);` wrapper plus an
`impl<params> Iterator for $Name<params>` block whose `Item` is
`<$From as Iterator>::Item` and whose `next`/`size_hint` delegate to the
single field `self.0`.

We embed the generator shallowly:
 * input declarations are token trees (`TT`), matched by `matchDecl`,
   which mirrors the two-arm pattern match (a `ty` fragment is treated as
   an opaque nonempty token sequence that cannot contain a top-level
   `where` keyword, matching how the Rust type grammar stops at `where`);
 * the emitted artifact is a structured pair (struct definition,
   impl definition) produced by one template function per arm;
 * the runtime behaviour of the generated code is modelled by `Iter`
   (a state-passing iterator interface with `next` and `size_hint`) and
   `wrapIter`, the delegating wrapper the emitted impl denotes.
-/

namespace PubIteratorType

/-- Delimiters of token groups, as in Rust token trees. -/
inductive Delim
  | paren
  | bracket
  | brace
  deriving DecidableEq, Repr

/-- A token tree: an identifier leaf, an arbitrary punctuation/keyword
leaf, or a delimited group of token trees. -/
inductive TT
  | ident (s : String)
  | tok (s : String)
  | group (d : Delim) (ts : List TT)

/-- Whether a token tree is the top-level keyword token `where`. -/
def isWhereTok : TT → Bool
  | TT.tok s => s == "where"
  | _ => false

/-- Split a token sequence at the first top-level `where` keyword;
`none` when no top-level `where` occurs.  Tokens inside groups are not
inspected, as in Rust token-tree matching. -/
def splitAtWhere : List TT → Option (List TT × List TT)
  | [] => none
  | t :: ts =>
    if isWhereTok t then some ([], ts)
    else
      match splitAtWhere ts with
      | some p => some (t :: p.1, p.2)
      | none => none

/-- A parsed declaration: attribute tokens, wrapper-type name, generic
parameter tokens, backing-type tokens, optional `where`-clause tokens.
This is the result of a successful match of either arm. -/
structure Decl where
  attr : List TT
  name : String
  params : List TT
  fromTy : List TT
  whereClause : Option (List TT)

/-- Dispatch on the tail after `=`: the `$From:ty` fragment is the
longest run of tokens before a top-level `where` (the Rust type grammar
cannot contain a top-level `where`), and must be nonempty; when a
top-level `where` follows, the remaining tokens form the constraint
clause (second arm), otherwise there is none (first arm). -/
def parseAfterEq (rest : List TT) : Option (List TT × Option (List TT)) :=
  match splitAtWhere rest with
  | none => if rest.isEmpty then none else some (rest, none)
  | some p => if p.1.isEmpty then none else some (p.1, some p.2)

/-- Match an input token stream against the two arms of the generator:
`# [attr*] Name [params*] = From:ty (where w*)?`.  `none` models the
`MalformedDeclaration` rejection: the input matched neither arm. -/
def matchDecl : List TT → Option Decl
  | TT.tok "#" :: TT.group Delim.bracket attr :: TT.ident name ::
      TT.group Delim.bracket params :: TT.tok "=" :: rest =>
    match parseAfterEq rest with
    | some d => some ⟨attr, name, params, d.1, d.2⟩
    | none => none
  | _ => none

/-- Item-level visibility in the emitted code. -/
inductive Vis
  | pub
  | priv
  deriving DecidableEq, Repr

/-- The emitted wrapper-type definition
`#[attr] pub struct Name<params>(fieldTy) (where w)?;`. -/
structure StructDef where
  attr : List TT
  vis : Vis
  name : String
  params : List TT
  fieldTy : List TT
  whereClause : Option (List TT)

/-- Body of a method provided by the emitted impl block. -/
inductive MethBody
  | delegateNext
  | delegateSizeHint
  deriving DecidableEq, Repr

/-- A method definition inside the emitted impl block. -/
structure MethDef where
  name : String
  body : MethBody
  deriving DecidableEq, Repr

/-- The emitted impl block
`impl<params> Iterator for Name<params> (where w)? { type Item = itemTy; methods }`. -/
structure ImplDef where
  implParams : List TT
  traitName : String
  selfName : String
  selfParams : List TT
  whereClause : Option (List TT)
  itemTy : List TT
  methods : List MethDef

/-- The generated artifact: the wrapper-type definition together with its
capability (Iterator) implementation. -/
structure Artifact where
  structDef : StructDef
  implDef : ImplDef

/-- The token sequence `< ty as Iterator >::Item`, the associated-item
projection the emitted impl binds `Item` to. -/
def iterItemTokens (ty : List TT) : List TT :=
  TT.tok "<" :: ty ++
    [TT.tok "as", TT.ident "Iterator", TT.tok ">", TT.tok "::", TT.ident "Item"]

/-- The delegating method list emitted by both arms: exactly `next`
(body `self.0.next()`) and `size_hint` (body `self.0.size_hint()`). -/
def delegatingMethods : List MethDef :=
  [⟨"next", MethBody.delegateNext⟩, ⟨"size_hint", MethBody.delegateSizeHint⟩]

/-- Template of the first arm (no `where` clause), from src/lib.rs
lines 41-53: `#[attr] pub struct Name<params>(From);` plus
`impl<params> Iterator for Name<params> { type Item = <From as Iterator>::Item; ... }`. -/
def expandNoWhereArm (attr : List TT) (name : String) (params fromTy : List TT) :
    Artifact :=
  { structDef :=
      { attr := attr, vis := Vis.pub, name := name, params := params,
        fieldTy := fromTy, whereClause := none }
    implDef :=
      { implParams := params, traitName := "Iterator", selfName := name,
        selfParams := params, whereClause := none,
        itemTy := iterItemTokens fromTy, methods := delegatingMethods } }

/-- Template of the second arm (with `where` clause), from src/lib.rs
lines 54-66: identical to the first arm except that the `where` tokens
are attached to the struct definition and to the impl block. -/
def expandWhereArm (attr : List TT) (name : String) (params fromTy w : List TT) :
    Artifact :=
  { structDef :=
      { attr := attr, vis := Vis.pub, name := name, params := params,
        fieldTy := fromTy, whereClause := some w }
    implDef :=
      { implParams := params, traitName := "Iterator", selfName := name,
        selfParams := params, whereClause := some w,
        itemTy := iterItemTokens fromTy, methods := delegatingMethods } }

/-- Expansion of a parsed declaration: the case split on the presence of
the constraint clause chooses between the two arms' templates. -/
def pub_iterator_type (d : Decl) : Artifact :=
  match d.whereClause with
  | none => expandNoWhereArm d.attr d.name d.params d.fromTy
  | some w => expandWhereArm d.attr d.name d.params d.fromTy w

/-- The single failure kind: the input matched neither grammar form. -/
inductive ExpandError
  | malformedDeclaration
  deriving DecidableEq, Repr

/-- Token-level expansion: match the input against the two arms and emit
the corresponding artifact, or reject with `malformedDeclaration`. -/
def expandTokens (input : List TT) : Except ExpandError Artifact :=
  match matchDecl input with
  | some d => Except.ok (pub_iterator_type d)
  | none => Except.error ExpandError.malformedDeclaration

/-- Expansion of a sequence of independent declaration sites, in order. -/
def expandAll : List (List TT) → List (Except ExpandError Artifact)
  | [] => []
  | i :: is => expandTokens i :: expandAll is

/-- Look up a method by name in an emitted impl block. -/
def findMeth : List MethDef → String → Option MethDef
  | [], _ => none
  | md :: rest, m => if md.name = m then some md else findMeth rest m

/-- How the host language resolves a call to an iterator method `m` on
the wrapper: a body provided by the emitted impl block when one exists,
otherwise the trait's default implementation, which is derived from
`next`. -/
inductive Resolved
  | provided (b : MethBody)
  | defaultFromNext (m : String)
  deriving DecidableEq, Repr

/-- Resolve a method name against the emitted impl block. -/
def resolveMethod (impl : ImplDef) (m : String) : Resolved :=
  match findMeth impl.methods m with
  | some md => Resolved.provided md.body
  | none => Resolved.defaultFromNext m

/-- Erase the constraint clause from both halves of an artifact; used to
compare the outputs of the two expansion arms. -/
def eraseWhere (a : Artifact) : Artifact :=
  { structDef := { a.structDef with whereClause := none }
    implDef := { a.implDef with whereClause := none } }

/-- Whether a module-visibility context (the chain of modules enclosing
the invocation site, outermost first) marks the site public. -/
def ctxMarksPublic (ctx : List Vis) : Prop := ∀ v ∈ ctx, v = Vis.pub

/-- Whether the emitted wrapper type is reachable from outside the
crate: every enclosing module is public and the item itself is public. -/
def reachableFromOutside (ctx : List Vis) (s : StructDef) : Prop :=
  s.vis = Vis.pub ∧ ∀ v ∈ ctx, v = Vis.pub

/-! ### Runtime model of the generated code

The generated wrapper is a one-field tuple struct whose `Iterator` impl
forwards `next` and `size_hint` to the field.  We model an iterator over
state type `σ` with item type `α` as a pair of state-passing functions,
and the generated code as `wrapIter`. -/

/-- A state-passing iterator interface: `next` returns the produced
element (or `none` at exhaustion) and the successor state; `size_hint`
reports a lower bound and an optional upper bound. -/
structure Iter (σ α : Type) where
  next : σ → Option α × σ
  size_hint : σ → Nat × Option Nat

/-- The generated wrapper: a single-field tuple struct (field `0`). -/
structure Wrapper (σ : Type) where
  field0 : σ

/-- The generated `Iterator` impl for the wrapper: `next` is
`self.0.next()` and `size_hint` is `self.0.size_hint()`. -/
def wrapIter {σ α : Type} (P : Iter σ α) : Iter (Wrapper σ) α where
  next s := ((P.next s.field0).1, ⟨(P.next s.field0).2⟩)
  size_hint s := P.size_hint s.field0

/-- The list of results of `n` successive `next` calls from state `s`. -/
def nextTrace {σ α : Type} (it : Iter σ α) : σ → Nat → List (Option α)
  | _, 0 => []
  | s, n + 1 => (it.next s).1 :: nextTrace it (it.next s).2 n

/-- The list of `size_hint` results observed before each of `n`
successive `next` calls from state `s`. -/
def sizeHintTrace {σ α : Type} (it : Iter σ α) : σ → Nat → List (Nat × Option Nat)
  | _, 0 => []
  | s, n + 1 => it.size_hint s :: sizeHintTrace it (it.next s).2 n

/-- A concrete backing producer for witnesses: iterates a list, with an
exact size hint, yielding `none` forever once the list is exhausted. -/
def listIter (α : Type) : Iter (List α) α where
  next s :=
    match s with
    | [] => (none, [])
    | x :: xs => (some x, xs)
  size_hint s := (s.length, some s.length)

/-! ### Concrete sample inputs used by witnesses -/

/-- Attribute tokens of the crate's doc example:
`doc="An iterator that yield infinitelly the default value."`. -/
def sampleAttr : List TT :=
  [TT.ident "doc", TT.tok "=", TT.tok "docstring"]

/-- Generic-parameter tokens `T` of the crate's doc example. -/
def sampleParams : List TT := [TT.ident "T"]

/-- Backing-type tokens `std::iter::Repeat<T>` of the crate's doc example. -/
def sampleFromTy : List TT :=
  [TT.ident "std", TT.tok "::", TT.ident "iter", TT.tok "::",
   TT.ident "Repeat", TT.tok "<", TT.ident "T", TT.tok ">"]

/-- Constraint-clause tokens `T : Default + Clone` of the crate's doc
example. -/
def sampleWhere : List TT :=
  [TT.ident "T", TT.tok ":", TT.ident "Default", TT.tok "+", TT.ident "Clone"]

/-- The crate's doc-example declaration as an input token stream:
`#[doc=...] RepeatDefault [T] = std::iter::Repeat<T> where T : Default + Clone`. -/
def sampleInput : List TT :=
  TT.tok "#" :: TT.group Delim.bracket sampleAttr :: TT.ident "RepeatDefault" ::
    TT.group Delim.bracket sampleParams :: TT.tok "=" ::
    (sampleFromTy ++ TT.tok "where" :: sampleWhere)

/-- A constraint-free declaration `#[doc=...] Counter [] = Range` as an
input token stream (the spec's `Counter[]` end-to-end scenario). -/
def counterInput : List TT :=
  TT.tok "#" :: TT.group Delim.bracket sampleAttr :: TT.ident "Counter" ::
    TT.group Delim.bracket [] :: TT.tok "=" :: [TT.ident "Range"]

/-- The `Counter` declaration in parsed form. -/
def counterDecl : Decl :=
  ⟨sampleAttr, "Counter", [], [TT.ident "Range"], none⟩

/-! ### Helper lemmas -/

/-- The wrapper's `next` trace coincides with the backing iterator's. -/
theorem nextTrace_wrapIter {σ α : Type} (P : Iter σ α) (s : σ) (n : Nat) :
    nextTrace (wrapIter P) ⟨s⟩ n = nextTrace P s n := by
  induction n generalizing s with
  | zero => rfl
  | succ n ih =>
    show (P.next s).1 :: nextTrace (wrapIter P) ⟨(P.next s).2⟩ n =
      (P.next s).1 :: nextTrace P (P.next s).2 n
    rw [ih]

/-- The wrapper's `size_hint` trace coincides with the backing
iterator's. -/
theorem sizeHintTrace_wrapIter {σ α : Type} (P : Iter σ α) (s : σ) (n : Nat) :
    sizeHintTrace (wrapIter P) ⟨s⟩ n = sizeHintTrace P s n := by
  induction n generalizing s with
  | zero => rfl
  | succ n ih =>
    show P.size_hint s :: sizeHintTrace (wrapIter P) ⟨(P.next s).2⟩ n =
      P.size_hint s :: sizeHintTrace P (P.next s).2 n
    rw [ih]

/-- A token sequence with no top-level `where` splits to `none`. -/
theorem splitAtWhere_none (ty : List TT)
    (h : ty.all (fun t => !isWhereTok t) = true) : splitAtWhere ty = none := by
  induction ty with
  | nil => rfl
  | cons t ts ih =>
    simp only [List.all_cons, Bool.and_eq_true, Bool.not_eq_true'] at h
    simp [splitAtWhere, h.1, ih h.2]

/-- Splitting `ty ++ where :: w` when `ty` has no top-level `where`
recovers `ty` and `w`. -/
theorem splitAtWhere_append (ty w : List TT)
    (h : ty.all (fun t => !isWhereTok t) = true) :
    splitAtWhere (ty ++ TT.tok "where" :: w) = some (ty, w) := by
  induction ty with
  | nil => simp [splitAtWhere, isWhereTok]
  | cons t ts ih =>
    simp only [List.all_cons, Bool.and_eq_true, Bool.not_eq_true'] at h
    simp [splitAtWhere, h.1, ih h.2]

/-! ### Claims -/

/-- C1: for every backing iterator `P`, the generated wrapper's `next`
yields exactly the same elements in the same order as `P`'s `next`, its
`size_hint` returns exactly what `P`'s `size_hint` would have returned
at each step, and once `P` is exhausted (its `next` returns `none`) the
wrapper's `next` returns `none` exactly as `P` does. -/
theorem wrapper_delegation_transparency {σ α : Type} (P : Iter σ α) (s : σ)
    (n : Nat) :
    nextTrace (wrapIter P) ⟨s⟩ n = nextTrace P s n ∧
    sizeHintTrace (wrapIter P) ⟨s⟩ n = sizeHintTrace P s n ∧
    ((P.next s).1 = none → ((wrapIter P).next ⟨s⟩).1 = none) :=
  ⟨nextTrace_wrapIter P s n, sizeHintTrace_wrapIter P s n, fun h => h⟩

/-- C1 witness: the spec's end-to-end scenario, a backing producer
yielding `0, 1, 2`; the wrapper observes the same trace and the same
size hints, and returns `none` on the exhausted state. -/
theorem wrapper_delegation_transparency_witness :
    nextTrace (wrapIter (listIter Nat)) ⟨[0, 1, 2]⟩ 4 =
      nextTrace (listIter Nat) [0, 1, 2] 4 ∧
    sizeHintTrace (wrapIter (listIter Nat)) ⟨[0, 1, 2]⟩ 4 =
      sizeHintTrace (listIter Nat) [0, 1, 2] 4 ∧
    ((wrapIter (listIter Nat)).next ⟨[]⟩).1 = none :=
  ⟨(wrapper_delegation_transparency (listIter Nat) [0, 1, 2] 4).1,
   (wrapper_delegation_transparency (listIter Nat) [0, 1, 2] 4).2.1,
   (wrapper_delegation_transparency (listIter Nat) [] 1).2.2 rfl⟩

/-- The backing producer of the end-to-end scenario indeed yields
`0, 1, 2` and then exhaustion, and the wrapper observes the same. -/
example :
    nextTrace (wrapIter (listIter Nat)) ⟨[0, 1, 2]⟩ 4 =
      [some 0, some 1, some 2, none] := rfl

/-- C2: for every declaration accepted by either grammar form, the
generated impl binds the wrapper's `Item` type to the token sequence
`< From as Iterator >::Item` with the declaration's backing-type tokens
verbatim inside: the produced-element type is syntactically the backing
type's produced-element type, with no conversion introduced. -/
theorem wrapper_item_is_backing_item (d : Decl) :
    (pub_iterator_type d).implDef.itemTy = iterItemTokens d.fromTy := by
  cases d with
  | mk attr name params fromTy w => cases w <;> rfl

/-- C8: the two expansion arms emit the same template: erasing the
constraint clause from the constrained arm's output yields exactly the
unconstrained arm's output on the same prefix, the constrained arm
differs only by carrying the clause at the wrapper-type definition and
at the impl block, and the unconstrained arm's output carries no clause
anywhere (erasure fixes it). -/
theorem arms_share_template (attr : List TT) (name : String)
    (params fromTy w : List TT) :
    eraseWhere (expandWhereArm attr name params fromTy w) =
      expandNoWhereArm attr name params fromTy ∧
    (expandWhereArm attr name params fromTy w).structDef.whereClause = some w ∧
    (expandWhereArm attr name params fromTy w).implDef.whereClause = some w ∧
    eraseWhere (expandNoWhereArm attr name params fromTy) =
      expandNoWhereArm attr name params fromTy :=
  ⟨rfl, rfl, rfl, rfl⟩

/-- C3: every declaration carrying a constraint clause (backing-type
tokens `ty` nonempty and free of a top-level `where`) expands
successfully to the constrained arm's artifact, and the constraint
tokens `w` appear verbatim both in the wrapper-type definition and in
the emitted impl block. -/
theorem where_clause_copied_verbatim (attr : List TT) (name : String)
    (params ty w : List TT) (hne : ty.isEmpty = false)
    (hnw : ty.all (fun t => !isWhereTok t) = true) :
    expandTokens (TT.tok "#" :: TT.group Delim.bracket attr :: TT.ident name ::
        TT.group Delim.bracket params :: TT.tok "=" ::
        (ty ++ TT.tok "where" :: w)) =
      Except.ok (expandWhereArm attr name params ty w) ∧
    (expandWhereArm attr name params ty w).structDef.whereClause = some w ∧
    (expandWhereArm attr name params ty w).implDef.whereClause = some w := by
  refine ⟨?_, rfl, rfl⟩
  simp [expandTokens, matchDecl, parseAfterEq, splitAtWhere_append ty w hnw,
    hne, pub_iterator_type]

/-- C3 witness: the crate's doc example, whose constraint clause is
`T : Default + Clone`, expands with that clause verbatim in both
emitted definitions. -/
theorem where_clause_copied_verbatim_witness :
    sampleFromTy.isEmpty = false ∧
    sampleFromTy.all (fun t => !isWhereTok t) = true ∧
    (expandTokens sampleInput =
        Except.ok (expandWhereArm sampleAttr "RepeatDefault" sampleParams
          sampleFromTy sampleWhere) ∧
      (expandWhereArm sampleAttr "RepeatDefault" sampleParams sampleFromTy
          sampleWhere).structDef.whereClause = some sampleWhere ∧
      (expandWhereArm sampleAttr "RepeatDefault" sampleParams sampleFromTy
          sampleWhere).implDef.whereClause = some sampleWhere) :=
  ⟨rfl, rfl,
   where_clause_copied_verbatim sampleAttr "RepeatDefault" sampleParams
     sampleFromTy sampleWhere rfl rfl⟩

/-- C4: every declaration without a constraint clause and with an empty
generic-parameter list expands successfully to a wrapper type with the
declared name, zero generic parameters (also on the impl block), whose
sole field has the backing type, and with no constraint clause anywhere
in the output. -/
theorem nowhere_roundtrip (attr : List TT) (name : String) (ty : List TT)
    (hne : ty.isEmpty = false)
    (hnw : ty.all (fun t => !isWhereTok t) = true) :
    expandTokens (TT.tok "#" :: TT.group Delim.bracket attr :: TT.ident name ::
        TT.group Delim.bracket [] :: TT.tok "=" :: ty) =
      Except.ok (expandNoWhereArm attr name [] ty) ∧
    (expandNoWhereArm attr name [] ty).structDef.name = name ∧
    (expandNoWhereArm attr name [] ty).structDef.params = [] ∧
    (expandNoWhereArm attr name [] ty).implDef.implParams = [] ∧
    (expandNoWhereArm attr name [] ty).structDef.fieldTy = ty ∧
    (expandNoWhereArm attr name [] ty).structDef.whereClause = none ∧
    (expandNoWhereArm attr name [] ty).implDef.whereClause = none := by
  refine ⟨?_, rfl, rfl, rfl, rfl, rfl, rfl⟩
  simp [expandTokens, matchDecl, parseAfterEq, splitAtWhere_none ty hnw, hne,
    pub_iterator_type]

/-- C4 witness: the spec's `Counter[]` round trip, a non-generic wrapper
over the backing type `Range` with no constraint clause in the output. -/
theorem nowhere_roundtrip_witness :
    ([TT.ident "Range"] : List TT).isEmpty = false ∧
    ([TT.ident "Range"] : List TT).all (fun t => !isWhereTok t) = true ∧
    (expandTokens counterInput =
        Except.ok (expandNoWhereArm sampleAttr "Counter" [] [TT.ident "Range"]) ∧
      (expandNoWhereArm sampleAttr "Counter" [] [TT.ident "Range"]).structDef.name =
        "Counter" ∧
      (expandNoWhereArm sampleAttr "Counter" [] [TT.ident "Range"]).structDef.params =
        [] ∧
      (expandNoWhereArm sampleAttr "Counter" [] [TT.ident "Range"]).implDef.implParams =
        [] ∧
      (expandNoWhereArm sampleAttr "Counter" [] [TT.ident "Range"]).structDef.fieldTy =
        [TT.ident "Range"] ∧
      (expandNoWhereArm sampleAttr "Counter" [] [TT.ident "Range"]).structDef.whereClause =
        none ∧
      (expandNoWhereArm sampleAttr "Counter" [] [TT.ident "Range"]).implDef.whereClause =
        none) :=
  ⟨rfl, rfl, nowhere_roundtrip sampleAttr "Counter" [TT.ident "Range"] rfl rfl⟩

/-- C5: the generator emits the wrapper type with fixed `pub` item
visibility, so the type is reachable from outside the crate exactly when
the invocation context (the chain of enclosing modules) marks the site
public. -/
theorem wrapper_visibility_follows_context (d : Decl) (ctx : List Vis) :
    (pub_iterator_type d).structDef.vis = Vis.pub ∧
    (reachableFromOutside ctx (pub_iterator_type d).structDef ↔
      ctxMarksPublic ctx) := by
  have hv : (pub_iterator_type d).structDef.vis = Vis.pub := by
    cases d with
    | mk attr name params fromTy w => cases w <;> rfl
  exact ⟨hv, ⟨fun h => h.2, fun h => ⟨hv, h⟩⟩⟩

/-- C6: a declaration with nothing after `=` matches neither arm and is
rejected with `malformedDeclaration`; moreover expansion never partially
succeeds: every input either yields a complete artifact or exactly that
rejection. -/
theorem missing_backing_rejected (attr : List TT) (name : String)
    (params : List TT) :
    expandTokens (TT.tok "#" :: TT.group Delim.bracket attr :: TT.ident name ::
        TT.group Delim.bracket params :: TT.tok "=" :: []) =
      Except.error ExpandError.malformedDeclaration ∧
    ∀ input : List TT, (∃ a, expandTokens input = Except.ok a) ∨
      expandTokens input = Except.error ExpandError.malformedDeclaration := by
  constructor
  · rfl
  · intro input
    cases hm : matchDecl input with
    | some d => exact Or.inl ⟨pub_iterator_type d, by simp [expandTokens, hm]⟩
    | none => exact Or.inr (by simp [expandTokens, hm])

/-- C7: the metadata block is mandatory: every input accepted by either
arm begins with `#` followed by a bracketed attribute group, and a
declaration shaped like a valid one but with the metadata block omitted
is rejected with `malformedDeclaration` (there is no default metadata). -/
theorem metadata_block_mandatory :
    (∀ (input : List TT) (d : Decl), matchDecl input = some d →
      ∃ attr rest, input = TT.tok "#" :: TT.group Delim.bracket attr :: rest) ∧
    ∀ (name : String) (params rest : List TT),
      expandTokens (TT.ident name :: TT.group Delim.bracket params ::
          TT.tok "=" :: rest) =
        Except.error ExpandError.malformedDeclaration := by
  constructor
  · intro input d h
    unfold matchDecl at h
    split at h
    · next attr name params rest =>
      exact ⟨attr, _, rfl⟩
    · exact absurd h (by simp)
  · intro name params rest
    rfl

/-- C7 witness: the valid `Counter` input indeed begins with a metadata
block, and the same declaration with the metadata block removed is
rejected. -/
theorem metadata_block_mandatory_witness :
    (∃ attr rest,
      counterInput = TT.tok "#" :: TT.group Delim.bracket attr :: rest) ∧
    expandTokens (TT.ident "Counter" :: TT.group Delim.bracket [] ::
        TT.tok "=" :: [TT.ident "Range"]) =
      Except.error ExpandError.malformedDeclaration :=
  ⟨metadata_block_mandatory.1 counterInput counterDecl rfl,
   metadata_block_mandatory.2 "Counter" [] [TT.ident "Range"]⟩

/-- C9: expansion is a pure function of its own declaration: expanding
the same declaration twice yields identical artifacts, and in a sequence
of declaration sites each site's artifact is exactly what that
declaration yields in isolation, independent of what precedes or follows
it and of the order of unrelated declarations. -/
theorem expansion_pure_and_independent (pre post : List (List TT))
    (i j : List TT) :
    expandAll (pre ++ i :: post) =
      expandAll pre ++ expandTokens i :: expandAll post ∧
    expandTokens i = expandTokens i ∧
    expandAll [i, j] = [expandTokens i, expandTokens j] ∧
    expandAll [j, i] = [expandTokens j, expandTokens i] := by
  refine ⟨?_, rfl, rfl, rfl⟩
  induction pre with
  | nil => rfl
  | cons x xs ih => simp [expandAll, ih]

/-- C10: the emitted impl block provides exactly the two delegating
methods `next` and `size_hint`; resolving any other iterator method
name against it falls back to the trait's default implementation, which
is derived from `next`, not to a specialized implementation of the
backing type. -/
theorem impl_provides_only_next_and_size_hint (d : Decl) (m : String)
    (h1 : m ≠ "next") (h2 : m ≠ "size_hint") :
    (pub_iterator_type d).implDef.methods = delegatingMethods ∧
    resolveMethod (pub_iterator_type d).implDef "next" =
      Resolved.provided MethBody.delegateNext ∧
    resolveMethod (pub_iterator_type d).implDef "size_hint" =
      Resolved.provided MethBody.delegateSizeHint ∧
    resolveMethod (pub_iterator_type d).implDef m =
      Resolved.defaultFromNext m := by
  have hm : (pub_iterator_type d).implDef.methods = delegatingMethods := by
    cases d with
    | mk attr name params fromTy w => cases w <;> rfl
  refine ⟨hm, ?_, ?_, ?_⟩ <;>
    simp [resolveMethod, hm, delegatingMethods, findMeth, Ne.symm h1, Ne.symm h2]

/-- C10 witness: on the `Counter` declaration, `next` and `size_hint`
resolve to the provided delegating bodies while `count` resolves to the
default derived from `next`. -/
theorem impl_provides_only_next_and_size_hint_witness :
    ("count" ≠ "next" ∧ "count" ≠ "size_hint") ∧
    ((pub_iterator_type counterDecl).implDef.methods = delegatingMethods ∧
     resolveMethod (pub_iterator_type counterDecl).implDef "next" =
       Resolved.provided MethBody.delegateNext ∧
     resolveMethod (pub_iterator_type counterDecl).implDef "size_hint" =
       Resolved.provided MethBody.delegateSizeHint ∧
     resolveMethod (pub_iterator_type counterDecl).implDef "count" =
       Resolved.defaultFromNext "count") :=
  ⟨⟨by decide, by decide⟩,
   impl_provides_only_next_and_size_hint counterDecl "count" (by decide)
     (by decide)⟩

end PubIteratorType
